import Mathlib

/-!
Verification development for `notion_fund_daily_view.py`.

The script is embedded shallowly:
* JSON values coming back from the Notion API are modelled by `PyVal`;
  Python `None` and JSON `null` are both `PyVal.null` (a `dict.get` on a
  missing key also yields `None`, so the two are indistinguishable there).
* Python numbers are modelled as exact rationals `ℚ`.  `round_decimal`
  goes through `Decimal(str(value))`, i.e. it operates on the exact
  decimal value of its argument, which the rational embedding captures.
* Fallible Python code (attribute errors on values of unexpected shape,
  `KeyError` on subscripts, transport errors) is modelled with
  `Except String`.
* The Notion tables are modelled as in-memory stores: the holdings table
  as a list of property dictionaries, the daily table as a list of
  `DailyRow`, the trades table as a list of `(id, buy-date)` pairs.
-/

/-- A JSON value as produced by parsing a Notion API response in Python.
`null` stands both for JSON `null` and for Python `None`. -/
inductive PyVal where
  | null : PyVal
  | bool : Bool → PyVal
  | num : ℚ → PyVal
  | str : String → PyVal
  | arr : List PyVal → PyVal
  | obj : List (String × PyVal) → PyVal

/-- A Python dictionary holding JSON data (unique keys, first binding wins). -/
abbrev PyDict := List (String × PyVal)

/-- Python truthiness (`bool(v)`) of a JSON value. -/
def pyFalsy : PyVal → Bool
  | .null => true
  | .bool b => !b
  | .num q => q = 0
  | .str s => s.isEmpty
  | .arr xs => xs.isEmpty
  | .obj fields => fields.isEmpty

/-- Python `d.get(k)`: `None` when the key is absent. -/
def dictGetD (d : PyDict) (k : String) : PyVal :=
  match d.lookup k with
  | some v => v
  | none => .null

/-- Python `d[k]`: raises `KeyError` when the key is absent. -/
def pyGetItem (d : PyDict) (k : String) : Except String PyVal :=
  match d.lookup k with
  | some v => .ok v
  | none => .error "KeyError"

/-- Python `v or d`: the default replaces any falsy value. -/
def pyOr (v d : PyVal) : PyVal :=
  if pyFalsy v then d else v

/-- Calling `.get` on a value requires it to be a dictionary; any other
(truthy) value raises `AttributeError`. -/
def asDict : PyVal → Except String PyDict
  | .obj fields => .ok fields
  | _ => .error "AttributeError"

/-- Iterating a value as a sequence of fragments.  Non-list values make the
surrounding `join` generator raise (`AttributeError`/`TypeError`) at the
first element; this is collapsed into an immediate error. -/
def asList : PyVal → Except String (List PyVal)
  | .arr xs => .ok xs
  | _ => .error "TypeError"

/-- `str.join` raises `TypeError` on a non-string fragment. -/
def asStr : PyVal → Except String String
  | .str s => .ok s
  | _ => .error "TypeError"

/-- Rendering `str(v)` for a number-typed property (`get_prop_text`, line
106 of the source).  The exact text of the rendering is irrelevant to every
claim; only that it never raises matters. -/
def pyStrRender : PyVal → String
  | .num q => toString q
  | .str s => s
  | .bool b => toString b
  | _ => ""

/-- Python whitespace stripping of a character list (`str.strip`). -/
def pyStrip (l : List Char) : List Char :=
  (((l.dropWhile Char.isWhitespace).reverse).dropWhile Char.isWhitespace).reverse

/-- Python `str.strip()` on a string. -/
def pyStripStr (s : String) : String :=
  String.mk (pyStrip s.data)

/-- `get_prop_text` (source lines 93-107): extract a text value from a
Notion property.  The debug printing inside the script is pure output and
is not modelled. -/
def get_prop_text (prop : PyVal) : Except String String :=
  if pyFalsy prop then .ok "" else do
  let d ← asDict prop
  match dictGetD d "type" with
  | .str "rich_text" => do
      let arrv ← asList (pyOr (dictGetD d "rich_text") (.arr []))
      let frags ← arrv.mapM (fun x => do
        let xd ← asDict x
        asStr (pyOr (dictGetD xd "plain_text") (.str "")))
      .ok (pyStripStr (String.join frags))
  | .str "title" => do
      let arrv ← asList (pyOr (dictGetD d "title") (.arr []))
      let frags ← arrv.mapM (fun x => do
        let xd ← asDict x
        asStr (pyOr (dictGetD xd "plain_text") (.str "")))
      .ok (pyStripStr (String.join frags))
  | .str "number" =>
      match dictGetD d "number" with
      | .null => .ok ""
      | v => .ok (pyStrRender v)
  | _ => .ok ""

/-- `get_prop_number` (source lines 110-125): extract the numeric payload of
a Notion property.  The returned `PyVal` is whatever the relevant field
held (`null` models Python `None`, the "no value" result). -/
def get_prop_number (prop : PyVal) : Except String PyVal :=
  if pyFalsy prop then .ok .null else do
  let d ← asDict prop
  match dictGetD d "type" with
  | .str "number" => .ok (dictGetD d "number")
  | .str "formula" => do
      let f ← asDict (pyOr (dictGetD d "formula") (.obj []))
      match dictGetD f "type" with
      | .str "number" => .ok (dictGetD f "number")
      | _ => .ok .null
  | .str "rollup" => do
      let r ← asDict (pyOr (dictGetD d "rollup") (.obj []))
      match dictGetD r "type" with
      | .str "number" => .ok (dictGetD r "number")
      | _ => .ok .null
  | _ => .ok .null

/-- `safe_float` (source lines 176-183): convert to a float, falling back to
the default on `None` and on conversion errors.  Python would also parse a
numeric string here; string-valued number fields never arise in any claim,
so the (caught) `ValueError` path is the one modelled for strings. -/
def pySafeFloat (v : PyVal) (default : ℚ) : ℚ :=
  match v with
  | .null => default
  | .num q => q
  | .bool b => if b then 1 else 0
  | .str _ => default
  | .arr _ => default
  | .obj _ => default

/-- Python `str.zfill` restricted to the digit-only strings it is applied
to in this script (no sign handling needed). -/
def zfillChars (l : List Char) (w : Nat) : List Char :=
  if w ≤ l.length then l else List.replicate (w - l.length) '0' ++ l

/-- `zpad6` (source lines 72-75): keep only digit characters of the
stripped input and left-pad the result with zeros to 6 characters;
an input without digits yields the empty string. -/
def zpad6 (s : String) : String :=
  if ((pyStrip s.data).filter Char.isDigit).isEmpty then ""
  else String.mk (zfillChars ((pyStrip s.data).filter Char.isDigit) 6)

/-- Rounding of a rational to the nearest integer, ties away from zero:
the behaviour of `decimal.ROUND_HALF_UP`. -/
def round_half_up (q : ℚ) : ℤ :=
  if q ≥ 0 then ⌊q + 1/2⌋ else -⌊-q + 1/2⌋

/-- `round_decimal` (source lines 186-190): round half-up to `places`
decimal places.  The Python code routes the float through
`Decimal(str(value))`, so it rounds the exact decimal value of the
argument, which the rational model reflects directly. -/
def round_decimal (value : ℚ) (places : Nat) : ℚ :=
  (round_half_up (value * 10 ^ places) : ℚ) / 10 ^ places

/-! ## Field-name configuration (source lines 29-55) -/

def HOLDING_TITLE_PROP : String := "基金名称"
def HOLDING_CODE_PROP : String := "Code"
def HOLDING_DWJZ_PROP : String := "单位净值"
def HOLDING_GSZ_PROP : String := "估算净值"
def HOLDING_GSZZL_PROP : String := "估算涨跌幅"
def HOLDING_COST_PROP : String := "持仓成本"
def HOLDING_QUANTITY_PROP : String := "持仓份额"
def HOLDING_DAILY_PROFIT_PROP : String := "当日收益"
def HOLDING_HOLDING_PROFIT_PROP : String := "持有收益"
def DAILY_DATA_TITLE_PROP : String := "日期"
def DAILY_DATA_DAILY_PROFIT_PROP : String := "当日收益"
def DAILY_DATA_TOTAL_COST_PROP : String := "持仓成本"
def DAILY_DATA_TOTAL_PROFIT_PROP : String := "总收益"
def DAILY_DATA_TRADES_RELATION_PROP : String := "🌊 Fund 流水"
def TRADES_BUY_DATE_PROP : String := "买入日期"

/-! ## Profit calculation (source lines 225-283) -/

/-- `debug_prop_value` (source lines 128-151) only formats a string, but
formatting performs the same attribute accesses as the extractors; on a
property of unexpected shape it raises before the extraction below would.
This models exactly those accesses (the produced text is discarded).
One divergence from the extractor: the debug formatting of a rich-text
fragment uses `item.get("plain_text", "")`, so an explicit `null`
`plain_text` reaches `join` and raises there. -/
def debug_prop_touch (prop : PyVal) : Except String Unit :=
  if pyFalsy prop then .ok () else do
  let d ← asDict prop
  match dictGetD d "type" with
  | .str "number" => .ok ()
  | .str "formula" => do
      let _ ← asDict (pyOr (dictGetD d "formula") (.obj []))
      .ok ()
  | .str "rollup" => do
      let _ ← asDict (pyOr (dictGetD d "rollup") (.obj []))
      .ok ()
  | .str "rich_text" => do
      let arrv ← asList (pyOr (dictGetD d "rich_text") (.arr []))
      let _ ← arrv.mapM (fun x => do
        let xd ← asDict x
        asStr (match xd.lookup "plain_text" with | some v => v | none => .str ""))
      .ok ()
  | .str "title" => do
      let arrv ← asList (pyOr (dictGetD d "title") (.arr []))
      let _ ← arrv.mapM (fun x => do
        let xd ← asDict x
        asStr (match xd.lookup "plain_text" with | some v => v | none => .str ""))
      .ok ()
  | _ => .ok ()

/-- `safe_float(get_prop_number(props.get(name)))`: the numeric reading of a
property as done throughout `calculate_fund_profits`. -/
def numField (props : PyDict) (name : String) : Except String ℚ :=
  (get_prop_number (dictGetD props name)).map (fun v => pySafeFloat v 0)

/-- The raw fields `calculate_fund_profits` reads from a holding row, in
source order (lines 227-262). -/
structure HoldingFields where
  code : String
  name : String
  daily_profit : ℚ
  holding_profit : ℚ
  total_cost : ℚ
  current_price : ℚ
  daily_change_rate : ℚ
  quantity : ℚ
deriving DecidableEq

/-- The extraction phase of `calculate_fund_profits` (source lines
227-262): every property access of the Python code, including the ones
performed by the debug printing, in source order. -/
def read_holding_fields (holding : PyDict) : Except String HoldingFields := do
  let props ← asDict (pyOr (dictGetD holding "properties") (.obj []))
  let codeText ← get_prop_text (dictGetD props HOLDING_CODE_PROP)
  let code := zpad6 codeText
  let name ← get_prop_text (dictGetD props HOLDING_TITLE_PROP)
  let _ ← debug_prop_touch (dictGetD props HOLDING_GSZ_PROP)
  let _ ← debug_prop_touch (dictGetD props HOLDING_DWJZ_PROP)
  let _ ← debug_prop_touch (dictGetD props HOLDING_GSZZL_PROP)
  let _ ← debug_prop_touch (dictGetD props HOLDING_QUANTITY_PROP)
  let _ ← debug_prop_touch (dictGetD props HOLDING_COST_PROP)
  let _ ← debug_prop_touch (dictGetD props HOLDING_DAILY_PROFIT_PROP)
  let _ ← debug_prop_touch (dictGetD props HOLDING_HOLDING_PROFIT_PROP)
  let daily_profit ← numField props HOLDING_DAILY_PROFIT_PROP
  let holding_profit ← numField props HOLDING_HOLDING_PROFIT_PROP
  let total_cost ← numField props HOLDING_COST_PROP
  let gsz ← numField props HOLDING_GSZ_PROP
  let current_price ← if gsz ≤ 0 then numField props HOLDING_DWJZ_PROP else pure gsz
  let daily_change_rate ← numField props HOLDING_GSZZL_PROP
  let quantity ← numField props HOLDING_QUANTITY_PROP
  pure ⟨code, name, daily_profit, holding_profit, total_cost,
        current_price, daily_change_rate, quantity⟩

/-- The result dictionary of `calculate_fund_profits`. -/
structure FundProfits where
  code : String
  name : String
  total_cost : ℚ
  daily_profit : ℚ
  holding_profit : ℚ
deriving DecidableEq

/-- `calculate_fund_profits` (source lines 225-283): read the fields, then
either report zeros (quantity ≤ 0, lines 267-275) or the rounded values
read from the Notion formula fields (lines 277-283). -/
def calculate_fund_profits (holding : PyDict) : Except String FundProfits :=
  (read_holding_fields holding).map (fun f =>
    if f.quantity ≤ 0 then
      ⟨f.code, f.name, 0, 0, 0⟩
    else
      ⟨f.code, f.name, round_decimal f.total_cost 2,
        round_decimal f.daily_profit 2, round_decimal f.holding_profit 2⟩)

/-- Running totals accumulated by `update_all_holdings_profits`
(source lines 568-584). -/
structure Summary where
  total_cost : ℚ
  total_daily_profit : ℚ
  total_holding_profit : ℚ
deriving DecidableEq

/-- The summary loop of `update_all_holdings_profits` (source lines
574-597): each row is processed in a `try` block; a failure in the
calculation or in the `holding["id"]` subscript skips the row's
contribution. -/
def sumProfits (holdings : List PyDict) : Summary :=
  holdings.foldl (fun s h =>
    match calculate_fund_profits h, pyGetItem h "id" with
    | .ok p, .ok _ =>
        ⟨s.total_cost + p.total_cost,
         s.total_daily_profit + p.daily_profit,
         s.total_holding_profit + p.holding_profit⟩
    | _, _ => s) ⟨0, 0, 0⟩

/-! ## Date utilities (source lines 68-69, 350-354, 390-391, 505-515) -/

/-- Python `s.replace('@', '')`: drop every at-sign. -/
def stripAt (s : String) : String :=
  String.mk (s.data.filter (fun c => c ≠ '@'))

/-- Gregorian leap year, as used by `datetime`. -/
def isLeap (y : Nat) : Bool :=
  (y % 4 = 0 && y % 100 ≠ 0) || y % 400 = 0

/-- Number of days of a month in the Gregorian calendar. -/
def daysInMonth (y m : Nat) : Nat :=
  if m = 2 then (if isLeap y then 29 else 28)
  else if m = 4 ∨ m = 6 ∨ m = 9 ∨ m = 11 then 30 else 31

/-- A calendar date as a `(year, month, day)` triple. -/
abbrev Date := Nat × Nat × Nat

/-- `date - timedelta(days=1)`. -/
def prevDay : Date → Date
  | (y, m, d) =>
    if 1 < d then (y, m, d - 1)
    else if 1 < m then (y, m - 1, daysInMonth y (m - 1))
    else (y - 1, 12, 31)

/-- `date - timedelta(days=n)`. -/
def subDays : Nat → Date → Date
  | 0, d => d
  | n + 1, d => subDays n (prevDay d)

/-- Left-pad a decimal rendering with zeros. -/
def natPad (n w : Nat) : String :=
  String.mk (zfillChars (toString n).data w)

/-- Format a date as `YYYY-MM-DD` (`strftime('%Y-%m-%d')` / `isoformat`). -/
def fmtDate : Date → String
  | (y, m, d) => natPad y 4 ++ "-" ++ natPad m 2 ++ "-" ++ natPad d 2

/-- Split a character list on `'-'` (the `str.split('-')` of the date
parser), keeping empty fields. -/
def splitDash : List Char → List (List Char)
  | [] => [[]]
  | c :: rest =>
    if c = '-' then [] :: splitDash rest
    else
      match splitDash rest with
      | [] => [[c]]
      | f :: fs => (c :: f) :: fs

/-- Parse a non-empty all-digit character list as a decimal number. -/
def digitsToNat? (l : List Char) : Option Nat :=
  if l.isEmpty then none
  else if l.all Char.isDigit then
    some (l.foldl (fun n c => n * 10 + (c.toNat - 48)) 0)
  else none

/-- Parse a `YYYY-MM-DD` string the way `datetime.fromisoformat` accepts it
(zero-padded digit components, valid Gregorian date); `none` models the
`ValueError` it raises otherwise. -/
def parseISODate (s : String) : Option Date :=
  match splitDash s.data with
  | [ys, ms, ds] =>
    if ys.length = 4 && ms.length = 2 && ds.length = 2 then
      match digitsToNat? ys, digitsToNat? ms, digitsToNat? ds with
      | some y, some m, some d =>
        if 1 ≤ m && m ≤ 12 && 1 ≤ d && d ≤ daysInMonth y m then
          some (y, m, d)
        else none
      | _, _, _ => none
    else none
  | _ => none

/-- Lexicographic comparison of dates (`date.__le__`). -/
def dateLE (a b : Date) : Bool :=
  a.1 < b.1 || (a.1 = b.1 && (a.2.1 < b.2.1 || (a.2.1 = b.2.1 && a.2.2 ≤ b.2.2)))

/-- The previous day's title, `"@" + (date - 1 day)` (source lines 350-354):
`none` when `fromisoformat` would raise on the stripped title. -/
def prev_title (current_date_str : String) : Option String :=
  (parseISODate (stripAt current_date_str)).map (fun d => "@" ++ fmtDate (prevDay d))

/-! ## The daily data table (source lines 345-554) -/

/-- A row of the daily aggregate table.  The number properties can be
null in Notion, hence `Option ℚ`; the relation property is the set of
linked trade-row identifiers. -/
structure DailyRow where
  rowId : String
  title : String
  daily_profit : Option ℚ
  total_cost : Option ℚ
  total_profit : Option ℚ
  relation : Finset String
deriving DecidableEq

/-- A trade row, reduced to the fields this script reads: its page id and
its buy date (`YYYY-MM-DD`). -/
abbrev TradeRow := String × String

/-- A title-equality query against the daily table (`filter` with
`title: {equals: t}`): the rows with exactly that title, in table order. -/
def queryTitleEq (db : List DailyRow) (t : String) : List DailyRow :=
  db.filter (fun r => r.title = t)

/-- Which log line `get_previous_day_total_profit` takes on its way out:
`debug` = found the row, `info` = no previous row (line 376),
`warn` = the query raised (line 380), `silent` = table id unset. -/
inductive PrevNote where
  | silent : PrevNote
  | debug : PrevNote
  | info : PrevNote
  | warn : PrevNote
deriving DecidableEq

/-- `get_previous_day_total_profit` (source lines 345-381).  `dbSet` is
whether `DAILY_DATA_DB_ID` is configured; `transport` is the outcome of the
title-equality query (page size 1) for a given title — the caller passes
the in-memory table's answer, or an error to model a failing API call.
The date arithmetic happens outside the `try`, so a malformed date
propagates as an error. -/
def get_previous_day_total_profit (dbSet : Bool) (current_date_str : String)
    (transport : String → Except String (List DailyRow)) :
    Except String (ℚ × PrevNote) :=
  if !dbSet then .ok (0, .silent) else
  match prev_title current_date_str with
  | none => .error "ValueError"
  | some pt =>
    match transport pt with
    | .error _ => .ok (0, .warn)
    | .ok results =>
      match results.head? with
      | some row => .ok (row.total_profit.getD 0, .debug)
      | none => .ok (0, .info)

/-! ## Trades-relation reconciliation (source lines 384-437) -/

/-- The set of trade-row ids whose buy date equals the (stripped) target
date: the desired link set of `update_daily_trades_relation`. -/
def desired_trade_ids (trades : List TradeRow) (date_str : String) : Finset String :=
  ((trades.filter (fun t => t.2 = stripAt date_str)).map Prod.fst).toFinset

/-- The decision core of `update_daily_trades_relation` given the current
link set: the relation value after the run and how many PATCH writes were
issued (source lines 406-434).  An empty trade query always clears the
relation with a write; otherwise a write happens exactly when the add or
remove delta is non-empty, and it replaces the set wholesale. -/
def reconcile_decision (trades : List TradeRow) (date_str : String)
    (current : Finset String) : Finset String × Nat :=
  if (trades.filter (fun t => t.2 = stripAt date_str)).isEmpty then (∅, 1)
  else if desired_trade_ids trades date_str \ current ≠ ∅ ∨
      current \ desired_trade_ids trades date_str ≠ ∅ then
    (desired_trade_ids trades date_str, 1)
  else (current, 0)

/-- PATCH of the relation property of page `pid` (a by-id page update). -/
def setRelation (db : List DailyRow) (pid : String) (s : Finset String) :
    List DailyRow :=
  db.map (fun r => if r.rowId = pid then { r with relation := s } else r)

/-- `update_daily_trades_relation` (source lines 384-437) acting on the
in-memory daily table: returns the table afterwards and the number of PATCH
writes performed.  `tradesSet` is whether `TRADES_DB_ID` is configured.
A failing page fetch or patch (page id not in the table) is caught by the
function's own `except` and leaves the table unchanged. -/
def update_daily_trades_relation (tradesSet : Bool) (trades : List TradeRow)
    (date_str : String) (db : List DailyRow) (pid : String) :
    List DailyRow × Nat :=
  if !tradesSet then (db, 0) else
  if (trades.filter (fun t => t.2 = stripAt date_str)).isEmpty then
    (setRelation db pid ∅, 1)
  else
    match db.find? (fun r => r.rowId = pid) with
    | none => (db, 0)
    | some row =>
      if (reconcile_decision trades date_str row.relation).2 = 0 then (db, 0)
      else (setRelation db pid (reconcile_decision trades date_str row.relation).1, 1)

/-! ## The daily upsert (source lines 440-497) -/

/-- The four-field PATCH of `create_or_update_daily_data` on an existing row
(source lines 468-478): title, daily profit, total cost, cumulative total
profit are overwritten in place. -/
def patch_daily_fields (db : List DailyRow) (pid : String) (title : String)
    (dp tc cum : ℚ) : List DailyRow :=
  db.map (fun r =>
    if r.rowId = pid then
      { r with title := title, daily_profit := some dp,
               total_cost := some tc, total_profit := some cum }
    else r)

/-- `create_or_update_daily_data` (source lines 440-497): compute the
cumulative total, look up an existing row by exact title (page size 1,
first match), overwrite it in place or create a new row (with fresh page id
`newId`), then reconcile the trades relation of that page.  `dbSet` and
`tradesSet` are whether the two optional table ids are configured. -/
def create_or_update_daily_data (dbSet tradesSet : Bool) (trades : List TradeRow)
    (newId : String) (db : List DailyRow) (date_str : String)
    (daily_profit total_cost previous_total_profit : ℚ) : List DailyRow :=
  if !dbSet then db else
  match (queryTitleEq db date_str).head? with
  | some row =>
      (update_daily_trades_relation tradesSet trades date_str
        (patch_daily_fields db row.rowId date_str daily_profit total_cost
          (previous_total_profit + daily_profit)) row.rowId).1
  | none =>
      (update_daily_trades_relation tradesSet trades date_str
        (db ++ [⟨newId, date_str, some daily_profit, some total_cost,
          some (previous_total_profit + daily_profit), ∅⟩]) newId).1

/-! ## Weekly relation refresh and the top-level run (source lines 499-634) -/

/-- `update_week_trades_relations` (source lines 499-554): fetch one page of
daily rows whose title starts with `@`, keep those whose parsed date lies in
the last 7 days, and reconcile each one's trades relation. -/
def update_week_trades_relations (dbSet tradesSet : Bool) (trades : List TradeRow)
    (db : List DailyRow) (today : Date) : List DailyRow :=
  if !dbSet || !tradesSet then db else
  let week_ago := subDays 6 today
  let daily_records := (db.filter (fun r => r.title.startsWith "@")).take 100
  let week_records := daily_records.filterMap (fun r =>
    if r.title.startsWith "@" then
      match parseISODate (stripAt r.title) with
      | some d =>
        if dateLE week_ago d && dateLE d today then some (r.rowId, r.title) else none
      | none => none
    else none)
  week_records.foldl
    (fun acc pr => (update_daily_trades_relation tradesSet trades pr.2 acc pr.1).1) db

/-- The externally visible state the script can touch: the three Notion
tables it is configured with. -/
structure World where
  holdings : List PyDict
  daily : List DailyRow
  trades : List TradeRow

/-- `update_holding_profits` (source lines 293-296): the body is `pass` —
no request is issued, the world is returned unchanged. -/
def update_holding_profits (w : World) (holding_id : PyVal)
    (profits : FundProfits) : World :=
  w

/-- `update_all_holdings_profits` (source lines 557-634): process every
holding row (profit calculation plus the no-op holdings write), sum the
per-row profits, then record the daily aggregate and refresh the weekly
trade relations.  `today` is the date `today_iso_date` would produce and
`newId` the page id Notion would assign to a newly created daily row.
A `ValueError` from the previous-day date arithmetic is caught by the
outer `except` (lines 633-634), leaving the daily table untouched. -/
def update_all_holdings_profits (w : World) (today : Date) (newId : String)
    (dbSet tradesSet : Bool) : World :=
  let w1 := w.holdings.foldl (fun acc h =>
    match calculate_fund_profits h, pyGetItem h "id" with
    | .ok p, .ok hid => update_holding_profits acc hid p
    | _, _ => acc) w
  let summary := sumProfits w.holdings
  let today_str := "@" ++ fmtDate today
  match get_previous_day_total_profit dbSet today_str
      (fun t => .ok (queryTitleEq w1.daily t)) with
  | .error _ => w1
  | .ok pr =>
    let daily1 := create_or_update_daily_data dbSet tradesSet w1.trades newId
      w1.daily today_str (round_decimal summary.total_daily_profit 2)
      (round_decimal summary.total_cost 2) pr.1
    let daily2 := update_week_trades_relations dbSet tradesSet w1.trades daily1 today
    { w1 with daily := daily2 }

/-- The spec's stated formula for the per-row daily profit (section 4.3):
`market_value = current_price × quantity` and
`daily_profit = market_value × (daily_change_rate / 100)`. -/
def spec_daily_profit (current_price quantity daily_change_rate : ℚ) : ℚ :=
  (current_price * quantity) * (daily_change_rate / 100)

/-! ## Sample Notion property payloads used by concrete theorems -/

/-- A number property as the Notion API returns it. -/
def numberProp (q : ℚ) : PyVal :=
  .obj [("type", .str "number"), ("number", .num q)]

/-- A formula property whose formula evaluated to a number. -/
def formulaNumberProp (q : ℚ) : PyVal :=
  .obj [("type", .str "formula"),
        ("formula", .obj [("type", .str "number"), ("number", .num q)])]

/-- A rich-text property with a single fragment. -/
def richTextProp (s : String) : PyVal :=
  .obj [("type", .str "rich_text"),
        ("rich_text", .arr [.obj [("plain_text", .str s)]])]

/-- A title property with a single fragment. -/
def titleProp (s : String) : PyVal :=
  .obj [("type", .str "title"),
        ("title", .arr [.obj [("plain_text", .str s)]])]

/-! ## C6: zpad6 -/

theorem filter_dropWhile_eq {p q : Char → Bool} (h : ∀ c, q c = true → p c = false)
    (l : List Char) : (l.dropWhile q).filter p = l.filter p := by
  induction l with
  | nil => rfl
  | cons c l ih =>
    rw [List.dropWhile_cons]
    by_cases hq : q c = true
    · rw [if_pos hq, List.filter_cons, if_neg (by simp [h c hq]), ih]
    · rw [if_neg hq]

theorem whitespace_not_digit (c : Char) (h : c.isWhitespace = true) :
    c.isDigit = false := by
  simp only [Char.isWhitespace, Bool.or_eq_true, decide_eq_true_eq] at h
  rcases h with ((h | h) | h) | h <;> subst h <;> decide

theorem filter_isDigit_pyStrip (l : List Char) :
    (pyStrip l).filter Char.isDigit = l.filter Char.isDigit := by
  unfold pyStrip
  rw [List.filter_reverse, filter_dropWhile_eq whitespace_not_digit,
    List.filter_reverse, List.reverse_reverse,
    filter_dropWhile_eq whitespace_not_digit]

/-- C6: for every input with at least one digit character, `zpad6` returns a
string of length at least 6 made of the input's digit characters in order,
left-padded with zeros to length 6, and returned without truncation (equal
to the digit subsequence) when 6 or more digits are present; an input with
no digits yields the empty string. -/
theorem zpad6_spec (s : String) :
    (s.data.filter Char.isDigit ≠ [] →
      6 ≤ (zpad6 s).length ∧
      (zpad6 s).data =
        List.replicate (6 - (s.data.filter Char.isDigit).length) '0'
          ++ s.data.filter Char.isDigit ∧
      (6 ≤ (s.data.filter Char.isDigit).length →
        (zpad6 s).data = s.data.filter Char.isDigit)) ∧
    (s.data.filter Char.isDigit = [] → zpad6 s = "") := by
  have ht : (pyStrip s.data).filter Char.isDigit = s.data.filter Char.isDigit :=
    filter_isDigit_pyStrip s.data
  constructor
  · intro hne
    have hempty : (s.data.filter Char.isDigit).isEmpty = false := by
      cases hfd : s.data.filter Char.isDigit with
      | nil => exact absurd hfd hne
      | cons a t => rfl
    have hz : zpad6 s = String.mk (zfillChars (s.data.filter Char.isDigit) 6) := by
      unfold zpad6
      rw [ht, hempty]
      simp
    refine ⟨?_, ?_, ?_⟩
    · rw [hz]
      show 6 ≤ (zfillChars (s.data.filter Char.isDigit) 6).length
      unfold zfillChars
      by_cases h6 : 6 ≤ (s.data.filter Char.isDigit).length
      · rw [if_pos h6]
        exact h6
      · simp only [if_neg h6, List.length_append, List.length_replicate]
        omega
    · rw [hz]
      show zfillChars (s.data.filter Char.isDigit) 6 = _
      unfold zfillChars
      by_cases h6 : 6 ≤ (s.data.filter Char.isDigit).length
      · rw [if_pos h6, Nat.sub_eq_zero_of_le h6, List.replicate_zero, List.nil_append]
      · rw [if_neg h6]
    · intro h6
      rw [hz]
      show zfillChars (s.data.filter Char.isDigit) 6 = _
      unfold zfillChars
      rw [if_pos h6]
  · intro he
    unfold zpad6
    rw [ht, he]
    rfl

/-- Witness for C6 at concrete inputs. -/
theorem zpad6_spec_witness :
    (zpad6 "a12").data = "000012".data ∧
    (zpad6 " 1234567 ").data = "1234567".data ∧
    zpad6 "xy" = "" :=
  ⟨(((zpad6_spec "a12").1 (by decide)).2.1).trans (by decide),
   (((zpad6_spec " 1234567 ").1 (by decide)).2.2 (by decide)).trans (by decide),
   (zpad6_spec "xy").2 (by decide)⟩

/-! ## C7: round_decimal -/

/-- C7: `round_decimal` rounds half-up (ties away from zero), not
banker's rounding: `round_decimal(2.005, 2) = 2.01`; `round_half_up`
agrees with the nearest integer when the argument is not a tie and sends
ties away from zero on both sides. -/
theorem round_decimal_half_up_spec :
    round_decimal (2005/1000) 2 = 201/100 ∧
    (∀ (x : ℚ) (n : ℤ), |x - n| < 1/2 → round_half_up x = n) ∧
    (∀ n : ℤ, 0 ≤ n → round_half_up ((n : ℚ) + 1/2) = n + 1) ∧
    (∀ n : ℤ, 0 ≤ n → round_half_up (-((n : ℚ) + 1/2)) = -(n + 1)) := by
  refine ⟨?_, ?_, ?_, ?_⟩
  · unfold round_decimal round_half_up
    rw [if_pos (by norm_num)]
    rw [show (2005/1000 * 10^2 + 1/2 : ℚ) = ((201 : ℤ) : ℚ) by norm_num]
    rw [Int.floor_intCast]
    norm_num
  · intro x n h
    rw [abs_lt] at h
    obtain ⟨h1, h2⟩ := h
    unfold round_half_up
    by_cases hx : x ≥ 0
    · rw [if_pos hx, Int.floor_eq_iff]
      constructor <;> push_cast <;> linarith
    · rw [if_neg hx]
      have hfl : ⌊-x + 1/2⌋ = -n := by
        rw [Int.floor_eq_iff]
        constructor <;> push_cast <;> linarith
      rw [hfl, neg_neg]
  · intro n hn
    have hn' : (0 : ℚ) ≤ (n : ℚ) := by exact_mod_cast hn
    unfold round_half_up
    rw [if_pos (by linarith)]
    rw [show (n : ℚ) + 1/2 + 1/2 = ((n + 1 : ℤ) : ℚ) by push_cast; ring]
    exact Int.floor_intCast _
  · intro n hn
    have hn' : (0 : ℚ) ≤ (n : ℚ) := by exact_mod_cast hn
    unfold round_half_up
    rw [if_neg (by push_neg; linarith)]
    rw [show -(-((n : ℚ) + 1/2)) + 1/2 = ((n + 1 : ℤ) : ℚ) by push_cast; ring]
    rw [Int.floor_intCast]

/-- Witness for C7: the tie 2.5 rounds up to 3, not to the even 2. -/
theorem round_half_up_tie_witness :
    round_half_up (((2 : ℤ) : ℚ) + 1/2) = (2 : ℤ) + 1 :=
  round_decimal_half_up_spec.2.2.1 2 (by decide)

/-! ## C8: extractor totality and defaults -/

/-- The formula/rollup payload shapes on which the extractors' `.get`
accesses succeed: falsy (replaced by `{}`) or a dictionary. -/
def shapedPayload (v : PyVal) : Bool :=
  pyFalsy v || (match v with | .obj _ => true | _ => false)

/-- A rich-text/title fragment on which `x.get("plain_text")` succeeds and
`join` accepts the result: a dictionary whose `plain_text` is falsy
(replaced by `""`) or a string. -/
def shapedFragment (x : PyVal) : Bool :=
  match x with
  | .obj xd =>
      pyFalsy (dictGetD xd "plain_text") ||
        (match dictGetD xd "plain_text" with | .str _ => true | _ => false)
  | _ => false

/-- A rich-text/title payload the extractors can traverse: falsy (replaced
by `[]`) or an array of shaped fragments. -/
def shapedArr (v : PyVal) : Bool :=
  pyFalsy v || (match v with | .arr xs => xs.all shapedFragment | _ => false)

/-- Property values on which neither extractor raises: absent/null/falsy
values, and dictionaries whose formula/rollup payloads and rich-text/title
payloads have the shapes above. -/
def wellShaped (p : PyVal) : Bool :=
  pyFalsy p ||
  (match p with
   | .obj d =>
       shapedPayload (dictGetD d "formula") && shapedPayload (dictGetD d "rollup") &&
       shapedArr (dictGetD d "rich_text") && shapedArr (dictGetD d "title")
   | _ => false)

/-- Shapes with no numeric payload: absent/null/falsy properties,
unrecognized type tags, `number` properties with a null value, and
formula/rollup wrappers whose inner type is not `number` (or whose inner
number is null). -/
def numericPayloadAbsent (p : PyVal) : Bool :=
  pyFalsy p ||
  (match p with
   | .obj d =>
     match dictGetD d "type" with
     | .str "number" => (match dictGetD d "number" with | .null => true | _ => false)
     | .str "formula" =>
       (match pyOr (dictGetD d "formula") (.obj []) with
        | .obj f =>
          (match dictGetD f "type" with
           | .str "number" =>
               (match dictGetD f "number" with | .null => true | _ => false)
           | _ => true)
        | _ => false)
     | .str "rollup" =>
       (match pyOr (dictGetD d "rollup") (.obj []) with
        | .obj r =>
          (match dictGetD r "type" with
           | .str "number" =>
               (match dictGetD r "number" with | .null => true | _ => false)
           | _ => true)
        | _ => false)
     | _ => true
   | _ => false)

/-- Shapes carrying no text: absent/null/falsy properties, non-text type
tags, empty or absent fragment arrays, and null numbers. -/
def textValueEmptyShape (p : PyVal) : Bool :=
  pyFalsy p ||
  (match p with
   | .obj d =>
     match dictGetD d "type" with
     | .str "rich_text" =>
         (match pyOr (dictGetD d "rich_text") (.arr []) with
          | .arr [] => true | _ => false)
     | .str "title" =>
         (match pyOr (dictGetD d "title") (.arr []) with
          | .arr [] => true | _ => false)
     | .str "number" => (match dictGetD d "number" with | .null => true | _ => false)
     | _ => true
   | _ => false)


/-- Inverting a successful `asDict`. -/
theorem asDict_ok_inv {v : PyVal} {f : PyDict} (h : asDict v = .ok f) :
    v = .obj f := by
  cases v <;> simp [asDict] at h
  rw [h]

/-- C8 (amended): on well-shaped property values neither extractor raises;
when no numeric payload is present the numeric reading degrades to the
0 default through `safe_float`, and text-less shapes extract as the empty
string. -/
theorem extractors_degrade (p : PyVal) (h : wellShaped p = true) :
    (get_prop_number p).isOk = true ∧
    (get_prop_text p).isOk = true ∧
    (numericPayloadAbsent p = true →
      (get_prop_number p).map (fun v => pySafeFloat v 0) = .ok 0) ∧
    (textValueEmptyShape p = true → get_prop_text p = .ok "") := by
  by_cases hf : pyFalsy p = true
  · refine ⟨?_, ?_, fun _ => ?_, fun _ => ?_⟩ <;>
      simp [get_prop_number, get_prop_text, hf, Except.map, pySafeFloat,
        Except.isOk, Except.toBool]
  · cases p with
    | null => exact absurd rfl hf
    | bool b => exact absurd (show pyFalsy (.bool b) = true by simpa [wellShaped] using h) hf
    | num q => exact absurd (show pyFalsy (.num q) = true by simpa [wellShaped] using h) hf
    | str s => exact absurd (show pyFalsy (.str s) = true by simpa [wellShaped] using h) hf
    | arr xs => exact absurd (show pyFalsy (.arr xs) = true by simpa [wellShaped] using h) hf
    | obj d =>
      simp only [wellShaped] at h
      rw [Bool.or_eq_true] at h
      rcases h with h | h
      · exact absurd h hf
      · simp only [Bool.and_eq_true] at h
        obtain ⟨⟨⟨hform, hroll⟩, hrich⟩, htitle⟩ := h
        have payloadDict : ∀ v : PyVal, shapedPayload v = true →
            ∃ f, asDict (pyOr v (.obj [])) = .ok f := by
          intro v hv
          by_cases hfv : pyFalsy v = true
          · exact ⟨[], by simp [pyOr, hfv, asDict]⟩
          · cases v with
            | obj fields => exact ⟨fields, by simp [pyOr, hfv, asDict]⟩
            | null => exact absurd rfl hfv
            | bool b => simp [shapedPayload, hfv] at hv
            | num q => simp [shapedPayload, hfv] at hv
            | str s => simp [shapedPayload, hfv] at hv
            | arr xs => simp [shapedPayload, hfv] at hv
        have arrFrags : ∀ v : PyVal, shapedArr v = true →
            ∃ xs, asList (pyOr v (.arr [])) = .ok xs ∧ xs.all shapedFragment = true := by
          intro v hv
          by_cases hfv : pyFalsy v = true
          · exact ⟨[], by simp [pyOr, hfv, asList], rfl⟩
          · cases v with
            | arr xs =>
              refine ⟨xs, by simp [pyOr, hfv, asList], ?_⟩
              simpa [shapedArr, hfv] using hv
            | null => exact absurd rfl hfv
            | bool b => simp [shapedArr, hfv] at hv
            | num q => simp [shapedArr, hfv] at hv
            | str s => simp [shapedArr, hfv] at hv
            | obj fields => simp [shapedArr, hfv] at hv
        have fragOk : ∀ xs : List PyVal, xs.all shapedFragment = true →
            ∃ fr, xs.mapM (fun x => do
              let xd ← asDict x
              asStr (pyOr (dictGetD xd "plain_text") (.str ""))) =
                (.ok fr : Except String (List String)) := by
          intro xs hxs
          induction xs with
          | nil => exact ⟨[], rfl⟩
          | cons x xs ih =>
            rw [List.all_cons, Bool.and_eq_true] at hxs
            obtain ⟨hx, hxs2⟩ := hxs
            obtain ⟨fr, hfr⟩ := ih hxs2
            cases x with
            | obj xd =>
              by_cases hpt : pyFalsy (dictGetD xd "plain_text") = true
              · exact ⟨"" :: fr, by
                  rw [List.mapM_cons]
                  simp only [hfr]
                  show (do
                    let s ← asStr (pyOr (dictGetD xd "plain_text") (PyVal.str ""))
                    pure (s :: fr) : Except String (List String)) = Except.ok ("" :: fr)
                  unfold pyOr
                  rw [if_pos hpt]
                  rfl⟩
              · simp only [shapedFragment, Bool.or_eq_true] at hx
                rcases hx with hx | hx
                · exact absurd hx hpt
                · rcases hv : dictGetD xd "plain_text" with _ | _ | _ | sv | _ | _ <;>
                    rw [hv] at hx hpt <;> simp at hx
                  exact ⟨sv :: fr, by
                    rw [List.mapM_cons]
                    simp only [hfr]
                    show (do
                      let s ← asStr (pyOr (dictGetD xd "plain_text") (PyVal.str ""))
                      pure (s :: fr) : Except String (List String)) = Except.ok (sv :: fr)
                    unfold pyOr
                    rw [hv, if_neg hpt]
                    rfl⟩
            | null => simp [shapedFragment] at hx
            | bool b => simp [shapedFragment] at hx
            | num q => simp [shapedFragment] at hx
            | str s => simp [shapedFragment] at hx
            | arr ys => simp [shapedFragment] at hx
        have hnum : get_prop_number (.obj d) =
            (match dictGetD d "type" with
             | .str "number" => .ok (dictGetD d "number")
             | .str "formula" => do
                 let f ← asDict (pyOr (dictGetD d "formula") (.obj []))
                 match dictGetD f "type" with
                 | .str "number" => .ok (dictGetD f "number")
                 | _ => .ok .null
             | .str "rollup" => do
                 let r ← asDict (pyOr (dictGetD d "rollup") (.obj []))
                 match dictGetD r "type" with
                 | .str "number" => .ok (dictGetD r "number")
                 | _ => .ok .null
             | _ => .ok .null) := by
          unfold get_prop_number
          rw [if_neg hf]
          rfl
        have htext : get_prop_text (.obj d) =
            (match dictGetD d "type" with
             | .str "rich_text" => do
                 let arrv ← asList (pyOr (dictGetD d "rich_text") (.arr []))
                 let frags ← arrv.mapM (fun x => do
                   let xd ← asDict x
                   asStr (pyOr (dictGetD xd "plain_text") (.str "")))
                 .ok (pyStripStr (String.join frags))
             | .str "title" => do
                 let arrv ← asList (pyOr (dictGetD d "title") (.arr []))
                 let frags ← arrv.mapM (fun x => do
                   let xd ← asDict x
                   asStr (pyOr (dictGetD xd "plain_text") (.str "")))
                 .ok (pyStripStr (String.join frags))
             | .str "number" =>
                 match dictGetD d "number" with
                 | .null => .ok ""
                 | v => .ok (pyStrRender v)
             | _ => .ok "") := by
          unfold get_prop_text
          rw [if_neg hf]
          rfl
        refine ⟨?_, ?_, ?_, ?_⟩
        · rw [hnum]
          split
          · rfl
          · obtain ⟨f, hfd⟩ := payloadDict _ hform
            rw [hfd]
            show (Except.isOk (match dictGetD f "type" with
              | .str "number" => .ok (dictGetD f "number")
              | _ => (.ok .null : Except String PyVal))) = true
            split <;> rfl
          · obtain ⟨r, hrd⟩ := payloadDict _ hroll
            rw [hrd]
            show (Except.isOk (match dictGetD r "type" with
              | .str "number" => .ok (dictGetD r "number")
              | _ => (.ok .null : Except String PyVal))) = true
            split <;> rfl
          · rfl
        · rw [htext]
          split
          · obtain ⟨xs, hxd, hall⟩ := arrFrags _ hrich
            rw [hxd]
            obtain ⟨fr, hfr⟩ := fragOk _ hall
            show (Except.isOk (do
              let frags ← xs.mapM (fun x => do
                let xd ← asDict x
                asStr (pyOr (dictGetD xd "plain_text") (.str "")))
              (.ok (pyStripStr (String.join frags)) : Except String String))) = true
            rw [hfr]
            rfl
          · obtain ⟨xs, hxd, hall⟩ := arrFrags _ htitle
            rw [hxd]
            obtain ⟨fr, hfr⟩ := fragOk _ hall
            show (Except.isOk (do
              let frags ← xs.mapM (fun x => do
                let xd ← asDict x
                asStr (pyOr (dictGetD xd "plain_text") (.str "")))
              (.ok (pyStripStr (String.join frags)) : Except String String))) = true
            rw [hfr]
            rfl
          · split <;> rfl
          · rfl
        · intro hab
          simp only [numericPayloadAbsent, Bool.or_eq_true] at hab
          rcases hab with hab | hab
          · exact absurd hab hf
          · rw [hnum]
            revert hab
            split
            · intro hab
              split at hab
              · first | rfl | (next hnull => rw [hnull]; rfl)
              · exact absurd hab (by simp)
            · intro hab
              obtain ⟨f, hfd⟩ := payloadDict _ hform
              have hobj := asDict_ok_inv hfd
              rw [hobj] at hab
              rw [hobj]
              have hab2 : (match dictGetD f "type" with
                | PyVal.str "number" =>
                    (match dictGetD f "number" with | PyVal.null => true | _ => false)
                | _ => true) = true := hab
              show Except.map (fun v => pySafeFloat v 0)
                (match dictGetD f "type" with
                 | .str "number" => .ok (dictGetD f "number")
                 | _ => (.ok .null : Except String PyVal)) = .ok 0
              revert hab2
              split
              · intro hab2
                split at hab2
                · first | rfl | (next hnull => rw [hnull]; rfl)
                · exact absurd hab2 (by simp)
              · intro _
                rfl
            · intro hab
              obtain ⟨r, hrd⟩ := payloadDict _ hroll
              have hobj := asDict_ok_inv hrd
              rw [hobj] at hab
              rw [hobj]
              have hab2 : (match dictGetD r "type" with
                | PyVal.str "number" =>
                    (match dictGetD r "number" with | PyVal.null => true | _ => false)
                | _ => true) = true := hab
              show Except.map (fun v => pySafeFloat v 0)
                (match dictGetD r "type" with
                 | .str "number" => .ok (dictGetD r "number")
                 | _ => (.ok .null : Except String PyVal)) = .ok 0
              revert hab2
              split
              · intro hab2
                split at hab2
                · first | rfl | (next hnull => rw [hnull]; rfl)
                · exact absurd hab2 (by simp)
              · intro _
                rfl
            · intro _
              rfl
        · intro hte
          simp only [textValueEmptyShape, Bool.or_eq_true] at hte
          rcases hte with hte | hte
          · exact absurd hte hf
          · rw [htext]
            revert hte
            split
            · intro hte
              split at hte
              · first | rfl | (next harr => rw [harr]; rfl)
              · exact absurd hte (by simp)
            · intro hte
              split at hte
              · first | rfl | (next harr => rw [harr]; rfl)
              · exact absurd hte (by simp)
            · intro hte
              split at hte
              · first | rfl | (next hnull => rw [hnull]; rfl)
              · exact absurd hte (by simp)
            · intro _
              rfl

/-- Counterexample to C8 as stated: a formula property whose payload is a
(truthy) number, and a string-valued property, make the extractors raise
`AttributeError` — extraction does not always degrade to a default. -/
theorem extractors_raise_on_malformed :
    get_prop_number (.obj [("type", .str "formula"), ("formula", .num 5)])
      = .error "AttributeError" ∧
    get_prop_text (.str "oops") = .error "AttributeError" := by
  constructor
  · rfl
  · rfl

/-- A formula property whose formula evaluated to a string. -/
def stringFormulaProp : PyVal :=
  .obj [("type", .str "formula"), ("formula", .obj [("type", .str "string")])]

/-- Witness for the amended C8 at a concrete degenerate input: a formula
property whose inner type is a string yields the default 0 and the empty
text without raising. -/
theorem extractors_degrade_witness :
    (get_prop_number stringFormulaProp).map (fun v => pySafeFloat v 0) = .ok 0 ∧
    get_prop_text stringFormulaProp = .ok "" :=
  ⟨(extractors_degrade stringFormulaProp rfl).2.2.1 rfl,
   (extractors_degrade stringFormulaProp rfl).2.2.2 rfl⟩

/-! ## C1: the reported daily profit -/

/-- A fully populated holding row: the 当日收益 formula field holds 5 while
the price/quantity/rate fields give a market value of 6 and a 10% change. -/
def formulaHolding : PyDict :=
  [("id", .str "h1"),
   ("properties", .obj [
      (HOLDING_CODE_PROP, richTextProp "000001"),
      (HOLDING_TITLE_PROP, titleProp "Fund A"),
      (HOLDING_DAILY_PROFIT_PROP, formulaNumberProp 5),
      (HOLDING_HOLDING_PROFIT_PROP, formulaNumberProp 2),
      (HOLDING_COST_PROP, numberProp 100),
      (HOLDING_GSZ_PROP, numberProp 2),
      (HOLDING_DWJZ_PROP, numberProp 1),
      (HOLDING_GSZZL_PROP, numberProp 10),
      (HOLDING_QUANTITY_PROP, numberProp 3)])]

/-- Counterexample to C1: on `formulaHolding` the calculator reports a
daily profit of 5 — the value of the Notion formula field — although
`market_value × (daily_change_rate / 100)` for this row's current price 2,
quantity 3, and change rate 10 equals 0.6. -/
theorem round_half_up_intCast (m : ℤ) : round_half_up (m : ℚ) = m := by
  unfold round_half_up
  by_cases h : ((m : ℚ) ≥ 0)
  · rw [if_pos h, Int.floor_eq_iff]
    constructor <;> push_cast <;> linarith
  · rw [if_neg h]
    have : ⌊-(m : ℚ) + 1/2⌋ = -m := by
      rw [Int.floor_eq_iff]
      constructor <;> push_cast <;> linarith
    rw [this, neg_neg]

theorem round_decimal_int (q : ℚ) (p : Nat) (m : ℤ)
    (hm : q * 10 ^ p = (m : ℚ)) : round_decimal q p = q := by
  unfold round_decimal
  rw [hm, round_half_up_intCast, ← hm]
  field_simp

theorem daily_profit_not_spec_formula :
    read_holding_fields formulaHolding =
      .ok ⟨"000001", "Fund A", 5, 2, 100, 2, 10, 3⟩ ∧
    calculate_fund_profits formulaHolding = .ok ⟨"000001", "Fund A", 100, 5, 2⟩ ∧
    spec_daily_profit 2 3 10 = 3/5 ∧
    (5 : ℚ) ≠ 3/5 := by
  have h1 : read_holding_fields formulaHolding =
      .ok ⟨"000001", "Fund A", 5, 2, 100, 2, 10, 3⟩ := rfl
  have h2 : calculate_fund_profits formulaHolding = Except.ok
      (if (3 : ℚ) ≤ 0 then (⟨"000001", "Fund A", 0, 0, 0⟩ : FundProfits)
       else ⟨"000001", "Fund A", round_decimal 100 2, round_decimal 5 2,
             round_decimal 2 2⟩) := by
    unfold calculate_fund_profits
    rw [h1]
    rfl
  refine ⟨h1, ?_, by norm_num [spec_daily_profit], by norm_num⟩
  rw [h2, if_neg (by norm_num : ¬ (3 : ℚ) ≤ 0),
    round_decimal_int (100 : ℚ) 2 10000 (by norm_num),
    round_decimal_int (5 : ℚ) 2 500 (by norm_num),
    round_decimal_int (2 : ℚ) 2 200 (by norm_num)]

/-- C1 (amended): the reported daily profit is the rounded value of the
row's 当日收益 formula field (0 for a row with quantity ≤ 0); it is not
derived from the market value and the change rate. -/
theorem daily_profit_is_formula_field (h : PyDict) (f : HoldingFields)
    (p : FundProfits) (hf : read_holding_fields h = .ok f)
    (hp : calculate_fund_profits h = .ok p) :
    p.daily_profit = if f.quantity ≤ 0 then 0 else round_decimal f.daily_profit 2 := by
  unfold calculate_fund_profits at hp
  rw [hf] at hp
  have hp2 : (if f.quantity ≤ 0 then
      (⟨f.code, f.name, 0, 0, 0⟩ : FundProfits)
    else
      ⟨f.code, f.name, round_decimal f.total_cost 2,
        round_decimal f.daily_profit 2, round_decimal f.holding_profit 2⟩) = p :=
    Except.ok.inj hp
  by_cases hq : f.quantity ≤ 0
  · rw [if_pos hq] at hp2
    rw [if_pos hq, ← hp2]
  · rw [if_neg hq] at hp2
    rw [if_neg hq, ← hp2]

/-- Witness for the amended C1 on `formulaHolding`. -/
theorem daily_profit_is_formula_field_witness :
    (if (3 : ℚ) ≤ 0 then (⟨"000001", "Fund A", 0, 0, 0⟩ : FundProfits)
     else ⟨"000001", "Fund A", round_decimal 100 2, round_decimal 5 2,
           round_decimal 2 2⟩).daily_profit =
      if (3 : ℚ) ≤ 0 then 0 else round_decimal 5 2 := by
  have h1 : read_holding_fields formulaHolding =
      .ok ⟨"000001", "Fund A", 5, 2, 100, 2, 10, 3⟩ := rfl
  exact daily_profit_is_formula_field formulaHolding _ _ h1 (by
    unfold calculate_fund_profits
    rw [h1]
    rfl)

/-! ## C5: rows with quantity ≤ 0 contribute nothing -/

/-- C5: a holding row whose quantity is ≤ 0 reports zero cost and profits,
and removing it from the processed list leaves every aggregate sum
unchanged — it contributes exactly zero to the summary regardless of its
other fields. -/
theorem zero_quantity_no_contribution (h : PyDict)
    (hq : ∀ f, read_holding_fields h = .ok f → f.quantity ≤ 0) :
    (∀ p, calculate_fund_profits h = .ok p →
      p.total_cost = 0 ∧ p.daily_profit = 0 ∧ p.holding_profit = 0) ∧
    (∀ pre post, sumProfits (pre ++ h :: post) = sumProfits (pre ++ post)) := by
  have hcalc : ∀ p, calculate_fund_profits h = .ok p →
      p.total_cost = 0 ∧ p.daily_profit = 0 ∧ p.holding_profit = 0 := by
    intro p hc
    cases hr : read_holding_fields h with
    | error e =>
      unfold calculate_fund_profits at hc
      rw [hr] at hc
      exact absurd hc (by simp [Except.map])
    | ok f =>
      have hfq := hq f hr
      unfold calculate_fund_profits at hc
      rw [hr] at hc
      have h2 : (if f.quantity ≤ 0 then
          (⟨f.code, f.name, 0, 0, 0⟩ : FundProfits)
        else
          ⟨f.code, f.name, round_decimal f.total_cost 2,
            round_decimal f.daily_profit 2, round_decimal f.holding_profit 2⟩) = p :=
        Except.ok.inj hc
      rw [if_pos hfq] at h2
      rw [← h2]
      exact ⟨rfl, rfl, rfl⟩
  refine ⟨hcalc, ?_⟩
  have hstep : ∀ s : Summary,
      (match calculate_fund_profits h, pyGetItem h "id" with
       | .ok p, .ok _ =>
           (⟨s.total_cost + p.total_cost,
             s.total_daily_profit + p.daily_profit,
             s.total_holding_profit + p.holding_profit⟩ : Summary)
       | _, _ => s) = s := by
    intro s
    cases hc : calculate_fund_profits h with
    | error e => cases pyGetItem h "id" <;> rfl
    | ok p =>
      obtain ⟨z1, z2, z3⟩ := hcalc p hc
      cases pyGetItem h "id" with
      | error e => rfl
      | ok v =>
        show (⟨s.total_cost + p.total_cost,
              s.total_daily_profit + p.daily_profit,
              s.total_holding_profit + p.holding_profit⟩ : Summary) = s
        rw [z1, z2, z3, add_zero, add_zero, add_zero]
  intro pre post
  unfold sumProfits
  rw [List.foldl_append, List.foldl_append, List.foldl_cons]
  congr 1
  exact hstep _

/-- A holding row with negative quantity but non-zero profit fields. -/
def zeroQtyHolding : PyDict :=
  [("id", .str "h2"),
   ("properties", .obj [
      (HOLDING_CODE_PROP, richTextProp "000002"),
      (HOLDING_TITLE_PROP, titleProp "Fund B"),
      (HOLDING_DAILY_PROFIT_PROP, formulaNumberProp 7),
      (HOLDING_HOLDING_PROFIT_PROP, formulaNumberProp 8),
      (HOLDING_COST_PROP, numberProp 9),
      (HOLDING_GSZ_PROP, numberProp 1),
      (HOLDING_DWJZ_PROP, numberProp 1),
      (HOLDING_GSZZL_PROP, numberProp 50),
      (HOLDING_QUANTITY_PROP, numberProp (-1))])]

/-- Witness for C5 at a concrete row with quantity −1. -/
theorem zero_quantity_no_contribution_witness :
    sumProfits ([] ++ zeroQtyHolding :: []) = sumProfits ([] ++ []) :=
  (zero_quantity_no_contribution zeroQtyHolding
    (fun f hf => by
      have h1 : read_holding_fields zeroQtyHolding =
          .ok ⟨"000002", "Fund B", 7, 8, 9, 1, 50, -1⟩ := rfl
      rw [h1] at hf
      injection hf with h2
      rw [← h2]
      norm_num)).2 [] []

/-! ## C2: reconciliation writes -/

theorem desired_nonempty_records (trades : List TradeRow) (ds : String)
    (hne : desired_trade_ids trades ds ≠ ∅) :
    (trades.filter (fun t => t.2 = stripAt ds)).isEmpty = false := by
  cases hrec : trades.filter (fun t => t.2 = stripAt ds) with
  | nil =>
    exfalso
    apply hne
    unfold desired_trade_ids
    rw [hrec]
    rfl
  | cons a l => rfl

theorem reconcile_decision_val (trades : List TradeRow) (ds : String)
    (cur : Finset String)
    (hne : (trades.filter (fun t => t.2 = stripAt ds)).isEmpty = false) :
    (reconcile_decision trades ds cur).1 = desired_trade_ids trades ds := by
  unfold reconcile_decision
  rw [hne]
  simp only [Bool.false_eq_true, if_false]
  split
  · rfl
  · next hcond =>
    push_neg at hcond
    obtain ⟨h1, h2⟩ := hcond
    exact Finset.Subset.antisymm
      (Finset.sdiff_eq_empty_iff_subset.mp h2)
      (Finset.sdiff_eq_empty_iff_subset.mp h1)

theorem reconcile_decision_target_fixed (trades : List TradeRow) (ds : String)
    (hne : (trades.filter (fun t => t.2 = stripAt ds)).isEmpty = false) :
    reconcile_decision trades ds (desired_trade_ids trades ds) =
      (desired_trade_ids trades ds, 0) := by
  unfold reconcile_decision
  rw [hne]
  simp

theorem find?_setRelation (db : List DailyRow) (pid : String) (s : Finset String) :
    (setRelation db pid s).find? (fun r => r.rowId = pid) =
      (db.find? (fun r => r.rowId = pid)).map
        (fun r => { r with relation := s }) := by
  induction db with
  | nil => rfl
  | cons a l ih =>
    unfold setRelation at ih ⊢
    rw [List.map_cons]
    by_cases ha : a.rowId = pid
    · rw [if_pos ha]
      rw [List.find?_cons_of_pos _ (by simp [ha]),
        List.find?_cons_of_pos _ (by simp [ha]), Option.map_some']
    · rw [if_neg ha]
      rw [List.find?_cons_of_neg _ (by simp [ha]),
        List.find?_cons_of_neg _ (by simp [ha]), ih]

theorem setRelation_setRelation (db : List DailyRow) (pid : String)
    (s : Finset String) :
    setRelation (setRelation db pid s) pid s = setRelation db pid s := by
  unfold setRelation
  rw [List.map_map]
  congr 1
  funext r
  by_cases hr : r.rowId = pid <;> simp [hr]

theorem setRelation_eq_self {db : List DailyRow} {pid : String}
    {s : Finset String} (h : ∀ r ∈ db, r.rowId = pid → r.relation = s) :
    setRelation db pid s = db := by
  induction db with
  | nil => rfl
  | cons a l ih =>
    unfold setRelation at ih ⊢
    rw [List.map_cons]
    congr 1
    · by_cases ha : a.rowId = pid
      · rw [if_pos ha]
        have := h a (by simp) ha
        rw [← this]
      · rw [if_neg ha]
    · exact ih (fun r hr hp => h r (by simp [hr]) hp)

/-- Counterexample to C2: for a date with no trade rows the desired set and
the current link set are both empty, yet the reconciler issues one clearing
PATCH write (source lines 406-411) instead of none. -/
theorem relation_empty_desired_writes :
    desired_trade_ids [] "@2024-01-01" = (∅ : Finset String) ∧
    (⟨"d1", "@2024-01-01", none, none, none, ∅⟩ : DailyRow).relation =
      (∅ : Finset String) ∧
    (update_daily_trades_relation true [] "@2024-01-01"
      [⟨"d1", "@2024-01-01", none, none, none, ∅⟩] "d1").2 = 1 :=
  ⟨rfl, rfl, rfl⟩

/-- C2 (amended): whenever the desired trade-id set for the date is
non-empty, a reconciliation run on a row already linked exactly to that set
issues no write, and a second consecutive run with unchanged trades issues
no write; when the desired set is empty, every run issues one clearing
write even if the current set is already empty. -/
theorem relation_reconcile_no_write (trades : List TradeRow) (ds : String)
    (db : List DailyRow) (pid : String)
    (hne : desired_trade_ids trades ds ≠ ∅) :
    (∀ row, db.find? (fun r => r.rowId = pid) = some row →
       row.relation = desired_trade_ids trades ds →
       (update_daily_trades_relation true trades ds db pid).2 = 0) ∧
    (update_daily_trades_relation true trades ds
       (update_daily_trades_relation true trades ds db pid).1 pid).2 = 0 := by
  have hrec := desired_nonempty_records trades ds hne
  constructor
  · intro row hfind hrel
    simp [update_daily_trades_relation, hrec, hfind, hrel,
      reconcile_decision_target_fixed trades ds hrec]
  · cases hfind : db.find? (fun r => r.rowId = pid) with
    | none =>
      simp [update_daily_trades_relation, hrec, hfind]
    | some row =>
      by_cases hw : (reconcile_decision trades ds row.relation).2 = 0
      · simp [update_daily_trades_relation, hrec, hfind, hw]
      · simp [update_daily_trades_relation, hrec, hfind, hw, find?_setRelation,
          reconcile_decision_val trades ds row.relation hrec,
          reconcile_decision_target_fixed trades ds hrec]

/-- Witness for the amended C2: a row already linked exactly to the one
trade of its date is not written. -/
theorem relation_reconcile_no_write_witness :
    (update_daily_trades_relation true [("T1", "2024-01-01")] "@2024-01-01"
      [⟨"d2", "@2024-01-01", none, none, none, {"T1"}⟩] "d2").2 = 0 :=
  (relation_reconcile_no_write [("T1", "2024-01-01")] "@2024-01-01"
    [⟨"d2", "@2024-01-01", none, none, none, {"T1"}⟩] "d2" (by decide)).1
    ⟨"d2", "@2024-01-01", none, none, none, {"T1"}⟩ rfl (by decide)

/-! ## Upsert machinery: the daily relation step as a field-preserving map -/

theorem udr_map (ts : Bool) (trades : List TradeRow) (ds : String)
    (db : List DailyRow) (pid : String) :
    ∃ g : DailyRow → DailyRow,
      (update_daily_trades_relation ts trades ds db pid).1 = db.map g ∧
      ∀ r, (g r).rowId = r.rowId ∧ (g r).title = r.title ∧
        (g r).daily_profit = r.daily_profit ∧ (g r).total_cost = r.total_cost ∧
        (g r).total_profit = r.total_profit := by
  cases ts with
  | false =>
    exact ⟨id, by simp [update_daily_trades_relation],
      fun r => ⟨rfl, rfl, rfl, rfl, rfl⟩⟩
  | true =>
    by_cases hrec : (trades.filter (fun t => t.2 = stripAt ds)).isEmpty = true
    · refine ⟨fun r => if r.rowId = pid then { r with relation := ∅ } else r, ?_, ?_⟩
      · simp [update_daily_trades_relation, hrec, setRelation]
      · intro r
        by_cases hr : r.rowId = pid <;> simp [hr]
    · cases hfind : db.find? (fun r => r.rowId = pid) with
      | none =>
        exact ⟨id, by simp [update_daily_trades_relation, hrec, hfind],
          fun r => ⟨rfl, rfl, rfl, rfl, rfl⟩⟩
      | some row =>
        by_cases hw : (reconcile_decision trades ds row.relation).2 = 0
        · exact ⟨id, by simp [update_daily_trades_relation, hrec, hfind, hw],
            fun r => ⟨rfl, rfl, rfl, rfl, rfl⟩⟩
        · refine ⟨fun r => if r.rowId = pid then
              { r with relation := (reconcile_decision trades ds row.relation).1 }
            else r, ?_, ?_⟩
          · simp [update_daily_trades_relation, hrec, hfind, hw, setRelation]
          · intro r
            by_cases hr : r.rowId = pid <;> simp [hr]

theorem udr_idem (ts : Bool) (trades : List TradeRow) (ds : String)
    (db : List DailyRow) (pid : String) :
    (update_daily_trades_relation ts trades ds
      (update_daily_trades_relation ts trades ds db pid).1 pid).1 =
    (update_daily_trades_relation ts trades ds db pid).1 := by
  cases ts with
  | false => simp [update_daily_trades_relation]
  | true =>
    by_cases hrec : (trades.filter (fun t => t.2 = stripAt ds)).isEmpty = true
    · simp [update_daily_trades_relation, hrec, setRelation_setRelation]
    · have hrec2 : (trades.filter (fun t => t.2 = stripAt ds)).isEmpty = false := by
        simpa using hrec
      cases hfind : db.find? (fun r => r.rowId = pid) with
      | none => simp [update_daily_trades_relation, hrec, hfind]
      | some row =>
        by_cases hw : (reconcile_decision trades ds row.relation).2 = 0
        · simp [update_daily_trades_relation, hrec, hfind, hw]
        · simp [update_daily_trades_relation, hrec, hfind, hw, find?_setRelation,
            reconcile_decision_val trades ds row.relation hrec2,
            reconcile_decision_target_fixed trades ds hrec2]

theorem mem_eq_of_nodup_ids : ∀ {db : List DailyRow},
    (db.map DailyRow.rowId).Nodup →
    ∀ {a b : DailyRow}, a ∈ db → b ∈ db → a.rowId = b.rowId → a = b := by
  intro db
  induction db with
  | nil =>
    intro _ a b ha
    exact absurd ha (List.not_mem_nil a)
  | cons c l ih =>
    intro hnd a b ha hb heq
    rw [List.map_cons, List.nodup_cons] at hnd
    obtain ⟨hc, hl⟩ := hnd
    rcases List.mem_cons.mp ha with rfl | ha2
    · rcases List.mem_cons.mp hb with rfl | hb2
      · rfl
      · rw [heq] at hc
        exact absurd (List.mem_map_of_mem DailyRow.rowId hb2) hc
    · rcases List.mem_cons.mp hb with rfl | hb2
      · rw [← heq] at hc
        exact absurd (List.mem_map_of_mem DailyRow.rowId ha2) hc
      · exact ih hl ha2 hb2 heq

theorem filter_head_map_title {g : DailyRow → DailyRow}
    (hg : ∀ r, (g r).title = r.title) (db : List DailyRow) (t : String) :
    ((db.map g).filter (fun r => r.title = t)).head? =
      ((db.filter (fun r => r.title = t)).head?).map g := by
  rw [List.filter_map,
    show ((fun r : DailyRow => decide (r.title = t)) ∘ g) =
      (fun r : DailyRow => decide (r.title = t)) from funext fun r => by simp [hg r],
    List.head?_map]

theorem countP_map_title {g : DailyRow → DailyRow}
    (hg : ∀ r, (g r).title = r.title) (db : List DailyRow) (t : String) :
    (db.map g).countP (fun r => r.title = t) =
      db.countP (fun r => r.title = t) := by
  rw [List.countP_map]
  congr 1
  funext r
  simp [hg r]

theorem ids_map_preserved {g : DailyRow → DailyRow}
    (hg : ∀ r, (g r).rowId = r.rowId) (db : List DailyRow) :
    (db.map g).map DailyRow.rowId = db.map DailyRow.rowId := by
  rw [List.map_map]
  congr 1
  funext r
  simp [hg r]

theorem patch_filter_head :
    ∀ (db : List DailyRow), (db.map DailyRow.rowId).Nodup →
    ∀ {row0 : DailyRow} {date : String} {dp tc cum : ℚ},
    (db.filter (fun r => r.title = date)).head? = some row0 →
    ((patch_daily_fields db row0.rowId date dp tc cum).filter
      (fun r => r.title = date)).head? =
      some { row0 with
              title := date, daily_profit := some dp,
              total_cost := some tc, total_profit := some cum } ∧
    (patch_daily_fields db row0.rowId date dp tc cum).countP
      (fun r => r.title = date) = db.countP (fun r => r.title = date) := by
  intro db
  induction db with
  | nil =>
    intro _ row0 date dp tc cum hhead
    exact absurd hhead (by simp)
  | cons a l ih =>
    intro hnd row0 date dp tc cum hhead
    rw [List.map_cons, List.nodup_cons] at hnd
    obtain ⟨hc, hl⟩ := hnd
    by_cases hat : a.title = date
    · rw [List.filter_cons_of_pos (by simp [hat]), List.head?_cons] at hhead
      injection hhead with h0
      subst h0
      have hmapl : ∀ r ∈ l, (fun r : DailyRow => if r.rowId = a.rowId then
          { r with
             title := date, daily_profit := some dp,
             total_cost := some tc, total_profit := some cum } else r) r = r := by
        intro r hr
        have hne : ¬ r.rowId = a.rowId := by
          intro hid
          exact hc (hid ▸ List.mem_map_of_mem DailyRow.rowId hr)
        simp [hne]
      constructor
      · unfold patch_daily_fields
        rw [List.map_cons, if_pos rfl,
          List.filter_cons_of_pos (by simp), List.head?_cons]
      · unfold patch_daily_fields
        rw [List.map_cons, if_pos rfl,
          (List.map_congr_left hmapl).trans (List.map_id l),
          List.countP_cons, List.countP_cons]
        simp [hat]
    · rw [List.filter_cons_of_neg (by simp [hat])] at hhead
      have hrow0l : row0 ∈ l :=
        List.mem_of_mem_filter (List.mem_of_mem_head? (by rw [hhead]; rfl))
      have haid : ¬ a.rowId = row0.rowId := by
        intro hid
        exact hc (hid ▸ List.mem_map_of_mem DailyRow.rowId hrow0l)
      obtain ⟨ih1, ih2⟩ := ih hl hhead
      constructor
      · unfold patch_daily_fields at ih1 ⊢
        rw [List.map_cons, if_neg haid,
          List.filter_cons_of_neg (by simp [hat]), ih1]
      · unfold patch_daily_fields at ih2 ⊢
        rw [List.map_cons, if_neg haid, List.countP_cons, List.countP_cons, ih2]

theorem upsert_shape (ts : Bool) (trades : List TradeRow) (newId : String)
    (db : List DailyRow) (date : String) (dp tc prev : ℚ)
    (hids : (db.map DailyRow.rowId).Nodup)
    (hnew : newId ∉ db.map DailyRow.rowId)
    (hcount : db.countP (fun r => r.title = date) ≤ 1) :
    ∃ row : DailyRow,
      ((create_or_update_daily_data true ts trades newId db date dp tc prev).filter
        (fun r => r.title = date)).head? = some row ∧
      row.title = date ∧ row.daily_profit = some dp ∧ row.total_cost = some tc ∧
      row.total_profit = some (prev + dp) ∧
      (create_or_update_daily_data true ts trades newId db date dp tc prev).countP
        (fun r => r.title = date) = 1 ∧
      ((create_or_update_daily_data true ts trades newId db date dp tc prev).map
        DailyRow.rowId).Nodup ∧
      (update_daily_trades_relation ts trades date
        (create_or_update_daily_data true ts trades newId db date dp tc prev)
        row.rowId).1 =
        create_or_update_daily_data true ts trades newId db date dp tc prev := by
  cases hhead : (queryTitleEq db date).head? with
  | some row0 =>
    have hhead2 : (db.filter (fun r => r.title = date)).head? = some row0 := hhead
    have hred : create_or_update_daily_data true ts trades newId db date dp tc prev =
        (update_daily_trades_relation ts trades date
          (patch_daily_fields db row0.rowId date dp tc (prev + dp)) row0.rowId).1 := by
      unfold create_or_update_daily_data
      rw [hhead]
      rfl
    obtain ⟨hfh, hcnt⟩ := patch_filter_head db hids hhead2
    obtain ⟨g, hudr, hg⟩ := udr_map ts trades date
      (patch_daily_fields db row0.rowId date dp tc (prev + dp)) row0.rowId
    have htp : ∀ r, (g r).title = r.title := fun r => (hg r).2.1
    have hip : ∀ r, (g r).rowId = r.rowId := fun r => (hg r).1
    rw [hred, hudr]
    refine ⟨g { row0 with
        title := date, daily_profit := some dp,
        total_cost := some tc, total_profit := some (prev + dp) },
      ?_, ?_, ?_, ?_, ?_, ?_, ?_, ?_⟩
    · rw [filter_head_map_title htp, hfh, Option.map_some']
    · rw [(hg _).2.1]
    · rw [(hg _).2.2.1]
    · rw [(hg _).2.2.2.1]
    · rw [(hg _).2.2.2.2]
    · rw [countP_map_title htp, hcnt]
      have h1 : 1 ≤ db.countP (fun r => r.title = date) := by
        rw [List.countP_eq_length_filter]
        cases hfd : db.filter (fun r => r.title = date) with
        | nil =>
          rw [hfd] at hhead2
          exact absurd hhead2 (by simp)
        | cons x xs => simp
      omega
    · rw [ids_map_preserved hip]
      unfold patch_daily_fields
      rw [ids_map_preserved (fun r => by
        by_cases hr : r.rowId = row0.rowId <;> simp [hr])]
      exact hids
    · rw [hip _, show ({ row0 with
          title := date, daily_profit := some dp,
          total_cost := some tc, total_profit := some (prev + dp) } : DailyRow).rowId
        = row0.rowId from rfl, ← hudr]
      exact udr_idem ts trades date
        (patch_daily_fields db row0.rowId date dp tc (prev + dp)) row0.rowId
  | none =>
    have hfe : db.filter (fun r => r.title = date) = [] :=
      List.head?_eq_none_iff.mp hhead
    have hred : create_or_update_daily_data true ts trades newId db date dp tc prev =
        (update_daily_trades_relation ts trades date
          (db ++ [⟨newId, date, some dp, some tc, some (prev + dp), ∅⟩]) newId).1 := by
      unfold create_or_update_daily_data
      rw [hhead]
      rfl
    obtain ⟨g, hudr, hg⟩ := udr_map ts trades date
      (db ++ [⟨newId, date, some dp, some tc, some (prev + dp), ∅⟩]) newId
    have htp : ∀ r, (g r).title = r.title := fun r => (hg r).2.1
    have hip : ∀ r, (g r).rowId = r.rowId := fun r => (hg r).1
    rw [hred, hudr]
    refine ⟨g ⟨newId, date, some dp, some tc, some (prev + dp), ∅⟩,
      ?_, ?_, ?_, ?_, ?_, ?_, ?_, ?_⟩
    · rw [filter_head_map_title htp, List.filter_append, hfe,
        List.filter_cons_of_pos (by simp), List.filter_nil, List.nil_append,
        List.head?_cons, Option.map_some']
    · rw [(hg _).2.1]
    · rw [(hg _).2.2.1]
    · rw [(hg _).2.2.2.1]
    · rw [(hg _).2.2.2.2]
    · rw [countP_map_title htp, List.countP_append,
        show db.countP (fun r => r.title = date) = 0 from by
          rw [List.countP_eq_length_filter, hfe]
          rfl]
      simp [List.countP_cons]
    · rw [ids_map_preserved hip, List.map_append, List.nodup_append]
      refine ⟨hids, by simp, ?_⟩
      intro x hx hx2
      rw [show List.map DailyRow.rowId
          [(⟨newId, date, some dp, some tc, some (prev + dp), ∅⟩ : DailyRow)] =
          [newId] from rfl, List.mem_singleton] at hx2
      subst hx2
      exact hnew hx
    · rw [hip _, show (⟨newId, date, some dp, some tc, some (prev + dp), ∅⟩
          : DailyRow).rowId = newId from rfl, ← hudr]
      exact udr_idem ts trades date
        (db ++ [⟨newId, date, some dp, some tc, some (prev + dp), ∅⟩]) newId

theorem upsert_fixed (ts : Bool) (trades : List TradeRow) (newId : String)
    (db : List DailyRow) (date : String) (dp tc prev : ℚ) (row : DailyRow)
    (hhead : (db.filter (fun r => r.title = date)).head? = some row)
    (htitle : row.title = date) (hdp : row.daily_profit = some dp)
    (htc : row.total_cost = some tc) (hcum : row.total_profit = some (prev + dp))
    (huniq : ∀ r ∈ db, r.rowId = row.rowId → r = row)
    (hudr : (update_daily_trades_relation ts trades date db row.rowId).1 = db) :
    create_or_update_daily_data true ts trades newId db date dp tc prev = db := by
  have hpatch : patch_daily_fields db row.rowId date dp tc (prev + dp) = db := by
    unfold patch_daily_fields
    have hall : ∀ r ∈ db, (fun r : DailyRow => if r.rowId = row.rowId then
        { r with
           title := date, daily_profit := some dp,
           total_cost := some tc, total_profit := some (prev + dp) } else r) r = r := by
      intro r hr
      by_cases hid : r.rowId = row.rowId
      · have hr2 := huniq r hr hid
        subst hr2
        show (if r.rowId = r.rowId then
            ({ r with
               title := date, daily_profit := some dp,
               total_cost := some tc, total_profit := some (prev + dp) } : DailyRow)
          else r) = r
        rw [if_pos rfl, ← htitle, ← hdp, ← htc, ← hcum]
      · simp [hid]
    exact (List.map_congr_left hall).trans (List.map_id db)
  unfold create_or_update_daily_data
  rw [show (queryTitleEq db date).head? = some row from hhead]
  show (update_daily_trades_relation ts trades date
    (patch_daily_fields db row.rowId date dp tc (prev + dp)) row.rowId).1 = db
  rw [hpatch, hudr]

/-! ## C3, C4, C9: the daily upsert -/

/-- C3: running the daily upsert twice in succession for the same date with
unchanged inputs produces exactly one aggregate row for that date, and the
second run leaves the table exactly as the first run left it — in
particular the four written fields keep their values.  The hypotheses state
the table is well-formed: page ids are distinct, the id Notion would assign
to a new page is fresh, and at most one existing row carries the date's
title. -/
theorem daily_upsert_idempotent (ts : Bool) (trades : List TradeRow)
    (newId : String) (db : List DailyRow) (date : String) (dp tc prev : ℚ)
    (hids : (db.map DailyRow.rowId).Nodup)
    (hnew : newId ∉ db.map DailyRow.rowId)
    (hcount : db.countP (fun r => r.title = date) ≤ 1) :
    (create_or_update_daily_data true ts trades newId db date dp tc prev).countP
      (fun r => r.title = date) = 1 ∧
    create_or_update_daily_data true ts trades newId
      (create_or_update_daily_data true ts trades newId db date dp tc prev)
      date dp tc prev =
      create_or_update_daily_data true ts trades newId db date dp tc prev := by
  obtain ⟨row, hhead, htitle, hdp, htc, hcum, hcount1, hnodup1, hfix⟩ :=
    upsert_shape ts trades newId db date dp tc prev hids hnew hcount
  refine ⟨hcount1, ?_⟩
  have hmem : row ∈ create_or_update_daily_data true ts trades newId db date dp tc prev :=
    List.mem_of_mem_filter (List.mem_of_mem_head? (by rw [hhead]; rfl))
  exact upsert_fixed ts trades newId _ date dp tc prev row hhead htitle hdp htc hcum
    (fun r hr hid => mem_eq_of_nodup_ids hnodup1 hr hmem hid) hfix

/-- Witness for C3 on an initially empty daily table with one trade. -/
theorem daily_upsert_idempotent_witness :
    (create_or_update_daily_data true true [("T1", "2024-03-15")] "n1" []
      "@2024-03-15" 7 8 100).countP (fun r => r.title = "@2024-03-15") = 1 ∧
    create_or_update_daily_data true true [("T1", "2024-03-15")] "n1"
      (create_or_update_daily_data true true [("T1", "2024-03-15")] "n1" []
        "@2024-03-15" 7 8 100) "@2024-03-15" 7 8 100 =
      create_or_update_daily_data true true [("T1", "2024-03-15")] "n1" []
        "@2024-03-15" 7 8 100 :=
  daily_upsert_idempotent true [("T1", "2024-03-15")] "n1" [] "@2024-03-15" 7 8 100
    (by simp) (by simp) (by simp)

/-- C4: the cumulative total profit written by the upsert is the previous
day's cumulative total plus today's daily profit, and when no row carries
the previous day's title the previous cumulative is 0 and the function
takes its informational (not error) log branch. -/
theorem cumulative_chain (ts : Bool) (trades : List TradeRow) (newId : String)
    (db : List DailyRow) (date : String) (dp tc prev : ℚ) (note : PrevNote)
    (hids : (db.map DailyRow.rowId).Nodup)
    (hnew : newId ∉ db.map DailyRow.rowId)
    (hcount : db.countP (fun r => r.title = date) ≤ 1)
    (hprev : get_previous_day_total_profit true date
      (fun t => .ok (queryTitleEq db t)) = .ok (prev, note)) :
    (∀ row, ((create_or_update_daily_data true ts trades newId db date dp tc
        prev).filter (fun r => r.title = date)).head? = some row →
      row.total_profit = some (prev + dp)) ∧
    (∀ pt, prev_title date = some pt → queryTitleEq db pt = [] →
      prev = 0 ∧ note = PrevNote.info) := by
  constructor
  · intro row2 hrow2
    obtain ⟨row, hhead, _, _, _, hcum, _, _, _⟩ :=
      upsert_shape ts trades newId db date dp tc prev hids hnew hcount
    rw [hhead] at hrow2
    injection hrow2 with h
    rw [← h]
    exact hcum
  · intro pt hpt hempty
    have hval : get_previous_day_total_profit true date
        (fun t => .ok (queryTitleEq db t)) = .ok (0, PrevNote.info) := by
      unfold get_previous_day_total_profit
      rw [hpt]
      show (match (Except.ok (queryTitleEq db pt) : Except String (List DailyRow)) with
        | .error _ => Except.ok ((0 : ℚ), PrevNote.warn)
        | .ok results =>
          match results.head? with
          | some row => Except.ok (row.total_profit.getD 0, PrevNote.debug)
          | none => Except.ok (0, PrevNote.info)) = Except.ok (0, PrevNote.info)
      rw [hempty]
      rfl
    rw [hval] at hprev
    injection hprev with h2
    exact ⟨(congrArg Prod.fst h2).symm, (congrArg Prod.snd h2).symm⟩

/-- The daily table holding only the previous day's row, cumulative 100. -/
def prevDayDb : List DailyRow :=
  [⟨"p1", "@2024-03-14", some 1, some 2, some 100, ∅⟩]

/-- Witness for C4: previous cumulative 100.00 and daily profit −35.50
yield a written cumulative of 64.50. -/
theorem cumulative_chain_witness :
    ((⟨"n1", "@2024-03-15", some (-(71/2) : ℚ), some 50,
       some ((100 : ℚ) + -(71/2)), ∅⟩ : DailyRow).total_profit =
      some ((100 : ℚ) + -(71/2))) ∧ (100 : ℚ) + -(71/2) = 129/2 := by
  constructor
  · exact (cumulative_chain false [] "n1" prevDayDb "@2024-03-15" (-(71/2)) 50 100
      PrevNote.debug (by simp [prevDayDb]) (by simp [prevDayDb])
      (by simp [prevDayDb]) rfl).1 _ rfl
  · norm_num

/-- C9: when the previous-day query raises, the error is swallowed and the
function returns 0.0 with a warning log, so the upsert writes a cumulative
equal to 0 plus today's daily profit. -/
theorem prev_error_returns_zero (e : String) (date pt : String)
    (hpt : prev_title date = some pt) (ts : Bool) (trades : List TradeRow)
    (newId : String) (db : List DailyRow) (dp tc : ℚ)
    (hids : (db.map DailyRow.rowId).Nodup)
    (hnew : newId ∉ db.map DailyRow.rowId)
    (hcount : db.countP (fun r => r.title = date) ≤ 1) :
    get_previous_day_total_profit true date (fun _ => .error e) =
      .ok (0, PrevNote.warn) ∧
    ∀ row, ((create_or_update_daily_data true ts trades newId db date dp tc
        0).filter (fun r => r.title = date)).head? = some row →
      row.total_profit = some (0 + dp) := by
  constructor
  · unfold get_previous_day_total_profit
    rw [hpt]
    rfl
  · intro row2 hrow2
    obtain ⟨row, hhead, _, _, _, hcum, _, _, _⟩ :=
      upsert_shape ts trades newId db date dp tc 0 hids hnew hcount
    rw [hhead] at hrow2
    injection hrow2 with h
    rw [← h]
    exact hcum

/-- Witness for C9 at a failing transport. -/
theorem prev_error_returns_zero_witness :
    get_previous_day_total_profit true "@2024-03-15" (fun _ => .error "HTTP 500") =
      .ok (0, PrevNote.warn) ∧
    (⟨"n1", "@2024-03-15", some (7 : ℚ), some 8, some ((0 : ℚ) + 7), ∅⟩
      : DailyRow).total_profit = some ((0 : ℚ) + 7) :=
  ⟨(prev_error_returns_zero "HTTP 500" "@2024-03-15" "@2024-03-14" rfl false [] "n1"
      [] 7 8 (by simp) (by simp) (by simp)).1,
   (prev_error_returns_zero "HTTP 500" "@2024-03-15" "@2024-03-14" rfl false [] "n1"
      [] 7 8 (by simp) (by simp) (by simp)).2 _ rfl⟩

/-! ## C10: the holdings table is never written -/

/-- C10: `update_holding_profits` is a no-op for every input, and a full
run of `update_all_holdings_profits` leaves the holdings table (and the
trades table) exactly as it found them: the only table the run writes is
the daily aggregate table. -/
theorem holdings_never_written (w : World) (today : Date) (newId : String)
    (dbSet tradesSet : Bool) :
    (∀ (w2 : World) (hid : PyVal) (p : FundProfits),
      update_holding_profits w2 hid p = w2) ∧
    (update_all_holdings_profits w today newId dbSet tradesSet).holdings =
      w.holdings ∧
    (update_all_holdings_profits w today newId dbSet tradesSet).trades =
      w.trades := by
  have hfold : ∀ (l : List PyDict) (acc : World),
      l.foldl (fun acc h =>
        match calculate_fund_profits h, pyGetItem h "id" with
        | .ok p, .ok hid => update_holding_profits acc hid p
        | _, _ => acc) acc = acc := by
    intro l
    induction l with
    | nil => intro acc; rfl
    | cons a l ih =>
      intro acc
      rw [List.foldl_cons]
      have hstep : (match calculate_fund_profits a, pyGetItem a "id" with
          | .ok p, .ok hid => update_holding_profits acc hid p
          | _, _ => acc) = acc := by
        cases calculate_fund_profits a <;> cases pyGetItem a "id" <;> rfl
      rw [hstep, ih]
  have hmain : update_all_holdings_profits w today newId dbSet tradesSet =
      (match get_previous_day_total_profit dbSet ("@" ++ fmtDate today)
          (fun t => .ok (queryTitleEq w.daily t)) with
       | .error _ => w
       | .ok pr =>
         { w with daily := (update_week_trades_relations dbSet tradesSet w.trades
             (create_or_update_daily_data dbSet tradesSet w.trades newId
               w.daily ("@" ++ fmtDate today)
               (round_decimal (sumProfits w.holdings).total_daily_profit 2)
               (round_decimal (sumProfits w.holdings).total_cost 2) pr.1)
             today) }) := by
    unfold update_all_holdings_profits
    rw [hfold]
  refine ⟨fun _ _ _ => rfl, ?_, ?_⟩ <;>
    · rw [hmain]
      cases get_previous_day_total_profit dbSet ("@" ++ fmtDate today)
        (fun t => .ok (queryTitleEq w.daily t)) <;> rfl
